import Mathlib

/-!
Verification development for the docmgmt document-management application.

The development shallowly embeds the file registry (app/models/models.py),
the local storage adapter (app/utils/s3_utils.py) and the relevant request
handlers (app/main/routes.py).  MongoDB collections become Lean lists of
documents; ObjectId values become Nat (for document identifiers) or String
(for user identifiers, which the code always compares in their str() form);
timestamps (created_at / modified_at), which no verified property observes,
are elided.  Since _id is a unique key in MongoDB, update_one on an _id
filter is modelled as updating every list element with that identifier.
-/

namespace DocMgmt

/-- Free-form metadata dictionary attached to a file: title, description and
keyword list, as built by the upload/edit handlers. -/
structure Metadata where
  title : String
  description : String
  keywords : List String
deriving DecidableEq

/-- Permission document stored under the "permissions" key of a file document:
the owner identifier plus the read / write / delete lists of user identifiers
(all stored as strings by the code). -/
structure Permissions where
  owner : String
  read : List String
  write : List String
  delete : List String
deriving DecidableEq

/-- A document of the files collection (File.create_file's file_doc shape). -/
structure FileDoc where
  id : Nat
  user_id : String
  filename : String
  s3_key : String
  file_type : String
  file_size : Nat
  metadata : Metadata
  is_deleted : Bool
  current_version : Nat
  permissions : Permissions
deriving DecidableEq

/-- A document of the file_versions collection (version_doc shape). -/
structure VersionDoc where
  file_id : Nat
  version_number : Nat
  s3_key : String
  created_by : String
  file_size : Nat
  comment : String
deriving DecidableEq

/-- The database state: the files and file_versions collections. -/
structure DB where
  files : List FileDoc
  versions : List VersionDoc
deriving DecidableEq

/-- Case-insensitive substring test, character-list worker: does pat occur at
the head of t? -/
def startsChars : List Char → List Char → Bool
  | [], _ => true
  | _ :: _, [] => false
  | p :: ps, c :: cs => p == c && startsChars ps cs

/-- Does pat occur anywhere inside t? -/
def hasChars (pat : List Char) : List Char → Bool
  | [] => startsChars pat []
  | c :: rest => startsChars pat (c :: rest) || hasChars pat rest

/-- Meaning of the MongoDB clause {field: {"$regex": query, "$options": "i"}}
for a plain (metacharacter-free) query string: case-insensitive substring
containment, i.e. substring containment after lowercasing both sides. -/
def ciContains (s pat : String) : Bool :=
  hasChars (pat.data.map Char.toLower) (s.data.map Char.toLower)

/-- File.get_file_by_id: find_one({"_id": fid, "is_deleted": False}). -/
def get_file_by_id (db : DB) (fid : Nat) : Option FileDoc :=
  db.files.find? (fun f => f.id == fid && !f.is_deleted)

/-- File.get_user_files: find({"user_id": uid, "is_deleted": False}). -/
def get_user_files (db : DB) (uid : String) : List FileDoc :=
  db.files.filter (fun f => f.user_id == uid && !f.is_deleted)

/-- The query side of File.search_files's initial search_conditions: the $or
over filename and the metadata title / description / keywords regexes (a
regex on an array field matches when some element matches). -/
def matchesQuery (query : String) (f : FileDoc) : Bool :=
  ciContains f.filename query ||
  ciContains f.metadata.title query ||
  ciContains f.metadata.description query ||
  f.metadata.keywords.any (fun k => ciContains k query)

/-- File.search_files.  The function first builds search_conditions with the
query $or plus is_deleted: False; when user_id is given it then REASSIGNS
the "$or" key, so the stored query clauses are replaced by the
owned-or-readable clause and only is_deleted: False survives of the original
conditions. -/
def search_files (db : DB) (query : String) (user_id : Option String) : List FileDoc :=
  match user_id with
  | Option.none =>
      db.files.filter (fun f => matchesQuery query f && !f.is_deleted)
  | Option.some uid =>
      db.files.filter (fun f =>
        (f.user_id == uid || f.permissions.read.contains uid) && !f.is_deleted)

/-- The update_data dictionaries passed to File.update_file by the handlers:
each optional key, when present, is $set on the file document. -/
structure UpdateData where
  s3_key : Option String
  current_version : Option Nat
  metadata : Option Metadata
  permissions : Option Permissions
deriving DecidableEq

/-- Effect of {"$set": update_data} on one file document. -/
def applySet (u : UpdateData) (f : FileDoc) : FileDoc :=
  ⟨f.id, f.user_id, f.filename, u.s3_key.getD f.s3_key, f.file_type,
   f.file_size, u.metadata.getD f.metadata, f.is_deleted,
   u.current_version.getD f.current_version, u.permissions.getD f.permissions⟩

/-- Effect on the files collection of update_one({"_id": fid}, {"$set": ...})
with document transformation h (_id is unique, so updating every match
coincides with update_one). -/
def update_matching (files : List FileDoc) (fid : Nat) (h : FileDoc → FileDoc) :
    List FileDoc :=
  files.map (fun f => if f.id == fid then h f else f)

/-- File.update_file: update_one({"_id": fid}, {"$set": update_data}).  The
Python function ends without a return statement, so its value is None; the
second component models that returned value (always Option.none). -/
def update_file (db : DB) (fid : Nat) (u : UpdateData) : DB × Option Unit :=
  (⟨update_matching db.files fid (applySet u), db.versions⟩, Option.none)

/-- Effect of soft delete's $set on one file document. -/
def markDeleted (f : FileDoc) : FileDoc :=
  ⟨f.id, f.user_id, f.filename, f.s3_key, f.file_type, f.file_size,
   f.metadata, true, f.current_version, f.permissions⟩

/-- File.soft_delete: update_one({"_id": fid}, {"$set": {"is_deleted": True}}). -/
def soft_delete (db : DB) (fid : Nat) : DB :=
  ⟨update_matching db.files fid markDeleted, db.versions⟩

/-- File.create_file: inserts the file document (is_deleted False,
current_version 1, owner in all three permission lists) and the initial
version document (version_number 1).  newId stands for the ObjectId MongoDB
generates for the insert; the function returns it. -/
def create_file (db : DB) (newId : Nat) (user_id filename s3_key file_type : String)
    (file_size : Nat) (metadata : Metadata) : DB × Nat :=
  let file_doc : FileDoc :=
    ⟨newId, user_id, filename, s3_key, file_type, file_size, metadata, false, 1,
     ⟨user_id, [user_id], [user_id], [user_id]⟩⟩
  let version_doc : VersionDoc :=
    ⟨newId, 1, s3_key, user_id, file_size, "Initial version"⟩
  (⟨db.files ++ [file_doc], db.versions ++ [version_doc]⟩, newId)

/-- File.get_file_version: find_one on file_id and version_number. -/
def get_file_version (db : DB) (fid v : Nat) : Option VersionDoc :=
  db.versions.find? (fun x => x.file_id == fid && x.version_number == v)

/-- The version documents belonging to one file (no sort applied). -/
def versions_of (db : DB) (fid : Nat) : List VersionDoc :=
  db.versions.filter (fun v => v.file_id == fid)

/-- The version numbers recorded for one file, in insertion order. -/
def versionNumbersOf (db : DB) (fid : Nat) : List Nat :=
  (versions_of db fid).map (fun v => v.version_number)

/-- The version_doc built inside File.add_new_version. -/
def newVersionDoc (fid : Nat) (uid s3_key : String) (file_size : Nat)
    (comment : Option String) (newv : Nat) : VersionDoc :=
  ⟨fid, newv, s3_key, uid, file_size, comment.getD ("Version " ++ toString newv)⟩

/-- First write of File.add_new_version: file_versions_collection.insert_one. -/
def insert_version (db : DB) (v : VersionDoc) : DB :=
  ⟨db.files, db.versions ++ [v]⟩

/-- Effect of add_new_version's $set on the parent file document:
current_version, s3_key and file_size. -/
def setPointer (newv : Nat) (s3_key : String) (file_size : Nat) (f : FileDoc) : FileDoc :=
  ⟨f.id, f.user_id, f.filename, s3_key, f.file_type, file_size, f.metadata,
   f.is_deleted, newv, f.permissions⟩

/-- Second write of File.add_new_version: the single update_one on the parent
file document setting current_version / s3_key / file_size. -/
def set_current_pointer (db : DB) (fid newv : Nat) (s3_key : String) (file_size : Nat) : DB :=
  ⟨update_matching db.files fid (setPointer newv s3_key file_size), db.versions⟩

/-- File.add_new_version: returns None when get_file_by_id finds nothing;
otherwise inserts the version document numbered current_version + 1, then
updates the parent document's pointer fields, and returns the new number. -/
def add_new_version (db : DB) (fid : Nat) (uid s3_key : String) (file_size : Nat)
    (comment : Option String) : DB × Option Nat :=
  match get_file_by_id db fid with
  | Option.none => (db, Option.none)
  | Option.some fi =>
      let newv := fi.current_version + 1
      let db1 := insert_version db (newVersionDoc fid uid s3_key file_size comment newv)
      let db2 := set_current_pointer db1 fid newv s3_key file_size
      (db2, Option.some newv)

/-- The database states a concurrent reader can observe while one
add_new_version call runs: the pre-state, the state between the two writes,
and the post-state (the code issues two separate collection operations with
no transaction, so the middle state is observable). -/
def add_version_trace (db : DB) (fid : Nat) (uid s3_key : String) (file_size : Nat)
    (comment : Option String) : List DB :=
  match get_file_by_id db fid with
  | Option.none => [db]
  | Option.some fi =>
      let newv := fi.current_version + 1
      let db1 := insert_version db (newVersionDoc fid uid s3_key file_size comment newv)
      let db2 := set_current_pointer db1 fid newv s3_key file_size
      [db, db1, db2]

/-! Request handlers (app/main/routes.py). -/

/-- The actions guarded by the inline permission checks of the handlers. -/
inductive Action where
  | read
  | write
  | del
deriving DecidableEq

/-- The permission list a handler consults for each action: view_file,
download_file and serve_preview use "read"; edit_file and restore_version use
"write"; delete_file uses "delete". -/
def permList (f : FileDoc) : Action → List String
  | Action.read => f.permissions.read
  | Action.write => f.permissions.write
  | Action.del => f.permissions.delete

/-- The access gate condition as written in the handlers (view_file lines
127-128, delete_file lines 391-392 and the others): denied when
str(file.user_id) != user_id and user_id not in the action's list. -/
def access_denied (f : FileDoc) (uid : String) (a : Action) : Bool :=
  (f.user_id != uid) && !((permList f a).contains uid)

/-- A handler permits the action when its denial condition is false. -/
def permitted (f : FileDoc) (uid : String) (a : Action) : Bool :=
  !(access_denied f uid a)

/-- Where a handler redirects (restore_version's success branch has no
return statement, modelled by fall_through). -/
inductive Redirect where
  | dashboard
  | view_page (fid : Nat)
  | fall_through
deriving DecidableEq

/-- A handler response: flashed (message, category) pairs plus the redirect. -/
structure Resp where
  flash : List (String × String)
  redirect : Redirect
deriving DecidableEq

/-- The restore_version handler: load the file (NotFound flash when absent),
run the write gate, load the requested version (NotFound flash when absent),
then update the file document via File.update_file and branch on the value
that call returned. -/
def restore_version (db : DB) (uid : String) (fid v : Nat) : DB × Resp :=
  match get_file_by_id db fid with
  | Option.none => (db, ⟨[("File not found", "danger")], Redirect.dashboard⟩)
  | Option.some fi =>
      if access_denied fi uid Action.write then
        (db, ⟨[("You do not have permission to modify this file", "danger")],
              Redirect.view_page fid⟩)
      else
        match get_file_version db fid v with
        | Option.none =>
            (db, ⟨[("Version not found", "danger")], Redirect.view_page fid⟩)
        | Option.some vi =>
            let r := update_file db fid
              ⟨Option.some vi.s3_key, Option.some v, Option.none, Option.none⟩
            if r.2.isSome then
              (r.1, ⟨[("Successfully restored to version " ++ toString v, "success")],
                     Redirect.fall_through⟩)
            else
              (r.1, ⟨[("Error restoring version", "danger")], Redirect.view_page fid⟩)

/-- The append performed by share_file for each permission list: if user_id
not in the list, append it. -/
def ensure_member (uid : String) (l : List String) : List String :=
  if l.contains uid then l else l ++ [uid]

/-- The POST branch of the share_file handler: only the owner passes the
check; the permissions document is rebuilt from the submitted lists with the
acting user appended to each list it is missing from, then stored via
File.update_file. -/
def share_file_post (db : DB) (uid : String) (fid : Nat)
    (read_users write_users delete_users : List String) : DB × Resp :=
  match get_file_by_id db fid with
  | Option.none => (db, ⟨[("File not found", "danger")], Redirect.dashboard⟩)
  | Option.some fi =>
      if fi.user_id != uid then
        (db, ⟨[("Only the owner can modify sharing settings", "danger")],
              Redirect.view_page fid⟩)
      else
        let perms : Permissions :=
          ⟨uid, ensure_member uid read_users, ensure_member uid write_users,
           ensure_member uid delete_users⟩
        let r := update_file db fid ⟨Option.none, Option.none, Option.none, Option.some perms⟩
        (r.1, ⟨[("Sharing settings updated successfully!", "success")],
               Redirect.view_page fid⟩)

/-- The delete_file handler: load the file, run the delete gate, then
File.soft_delete. -/
def delete_file_handler (db : DB) (uid : String) (fid : Nat) : DB × Resp :=
  match get_file_by_id db fid with
  | Option.none => (db, ⟨[("File not found", "danger")], Redirect.dashboard⟩)
  | Option.some fi =>
      if access_denied fi uid Action.del then
        (db, ⟨[("You do not have permission to delete this file", "danger")],
              Redirect.view_page fid⟩)
      else
        (soft_delete db fid,
         ⟨[("File deleted successfully", "success")], Redirect.dashboard⟩)

/-! Local storage adapter (app/utils/s3_utils.py).  The filesystem under
LOCAL_STORAGE_PATH is a list of (relative path, byte list) entries; the clock
and the md5 hex digest used by generate_presigned_url are environment inputs
passed explicitly.  Each operation returns the Python pair
(success flag, payload-or-message). -/

/-- Payload component of a storage operation's returned pair. -/
inductive SVal where
  | bytes (b : List Nat)
  | text (s : String)
deriving DecidableEq

/-- The stored files: path to contents. -/
structure FS where
  entries : List (String × List Nat)
deriving DecidableEq

/-- os.path.exists for a path under the storage directory. -/
def path_exists (fs : FS) (p : String) : Bool :=
  fs.entries.any (fun e => e.1 == p)

/-- LocalStorage.upload_file for an explicitly given file_path (every caller
passes one): open(full_path, 'wb') creates or truncates, so any previous
entry at the path is replaced; returns (True, file_path). -/
def upload_file (fs : FS) (data : List Nat) (file_path : String) : FS × (Bool × SVal) :=
  (⟨fs.entries.filter (fun e => e.1 != file_path) ++ [(file_path, data)]⟩,
   (true, SVal.text file_path))

/-- LocalStorage.download_file: when the path does not exist, returns
(False, "File not found: " plus the path); otherwise reads the bytes. -/
def download_file (fs : FS) (file_path : String) : Bool × SVal :=
  match fs.entries.find? (fun e => e.1 == file_path) with
  | Option.some e => (true, SVal.bytes e.2)
  | Option.none => (false, SVal.text ("File not found: " ++ file_path))

/-- LocalStorage.delete_file: (False, not-found message) when the path does
not exist; otherwise removes the entry and reports success. -/
def delete_file (fs : FS) (file_path : String) : FS × (Bool × SVal) :=
  if path_exists fs file_path then
    (⟨fs.entries.filter (fun e => e.1 != file_path)⟩,
     (true, SVal.text ("File deleted successfully")))
  else
    (fs, (false, SVal.text ("File not found: " ++ file_path)))

/-- LocalStorage.generate_presigned_url: (False, not-found message) when the
path does not exist; otherwise builds the token from the md5 hex digest of
"path:expiry" and returns the token URL. -/
def generate_presigned_url (fs : FS) (file_path : String) (expiration nowTs : Nat)
    (md5hex : String → String) : Bool × SVal :=
  if path_exists fs file_path then
    let expiry := nowTs + expiration
    let token := md5hex (file_path ++ ":" ++ toString expiry)
    (true, SVal.text ("/files/" ++ file_path ++ "?token=" ++ token ++
                      "&expires=" ++ toString expiry))
  else
    (false, SVal.text ("File not found: " ++ file_path))

/-! Concrete fixtures used by witnesses and counterexamples. -/

/-- Empty metadata dictionary. -/
def mdNone : Metadata := ⟨"", "", []⟩

/-- Permissions of the example file: u1 owns it, u2 is read-only. -/
def exPerms : Permissions := ⟨"u1", ["u1", "u2"], ["u1"], ["u1"]⟩

/-- Example file owned by u1, at version 2. -/
def exFile : FileDoc := ⟨1, "u1", "report", "k2", "txt", 20, mdNone, false, 2, exPerms⟩

/-- Version 1 of the example file. -/
def exV1 : VersionDoc := ⟨1, 1, "k1", "u1", 10, "Initial version"⟩

/-- Version 2 of the example file. -/
def exV2 : VersionDoc := ⟨1, 2, "k2", "u1", 20, "Version 2"⟩

/-- Example database: one file with two versions. -/
def exDB : DB := ⟨[exFile], [exV1, exV2]⟩

/-- A second file owned by u1, used where two files are needed. -/
def exFile2 : FileDoc := ⟨2, "u1", "notes", "k9", "txt", 5, mdNone, false, 1,
  ⟨"u1", ["u1"], ["u1"], ["u1"]⟩⟩

/-- Example database with two files. -/
def exDB2 : DB := ⟨[exFile, exFile2], [exV1, exV2, ⟨2, 1, "k9", "u1", 5, "Initial version"⟩]⟩

/-! Helper lemmas. -/

/-- Finding a live document by id is unaffected by applying an id- and
is_deleted-preserving update to the documents with another (or the same) id,
except that the found document comes back updated. -/
theorem find_live_update (files : List FileDoc) (fid : Nat) (h : FileDoc → FileDoc)
    (hid : ∀ f, (h f).id = f.id) (hdel : ∀ f, (h f).is_deleted = f.is_deleted)
    (fi : FileDoc)
    (hfind : files.find? (fun f => f.id == fid && !f.is_deleted) = Option.some fi) :
    (update_matching files fid h).find? (fun f => f.id == fid && !f.is_deleted) =
      Option.some (h fi) := by
  have hcomp : ((fun f : FileDoc => f.id == fid && !f.is_deleted) ∘
      (fun f => if f.id == fid then h f else f)) =
      (fun f : FileDoc => f.id == fid && !f.is_deleted) := by
    funext f
    by_cases hf : f.id = fid
    · simp [Function.comp, hf, hid, hdel]
    · simp [Function.comp, hf, hid, hdel]
  have hfi : fi.id = fid := by
    have hp := List.find?_some hfind
    simp only [Bool.and_eq_true, beq_iff_eq] at hp
    exact hp.1
  unfold update_matching
  rw [List.find?_map, hcomp, hfind]
  simp [hfi]

/-- Membership form of List.contains for strings. -/
theorem contains_iff_mem {l : List String} {a : String} :
    l.contains a = true ↔ a ∈ l := by
  simp [List.contains]

/-! C4 : the access-control gate. -/

/-- C4.  For every requester, file record and action, the handlers' gate
permits the action iff the requester is the record's owner or a member of the
action's permission list; hence the owner is permitted everything, a
non-member non-owner is denied everything, and a member of only the read list
gets read and nothing else. -/
theorem c4_access_gate (f : FileDoc) (uid : String) :
    (∀ a : Action, permitted f uid a = true ↔ (uid = f.user_id ∨ uid ∈ permList f a))
    ∧ (uid = f.user_id → ∀ a : Action, permitted f uid a = true)
    ∧ ((uid ≠ f.user_id ∧ ∀ a : Action, uid ∉ permList f a) →
        ∀ a : Action, permitted f uid a = false)
    ∧ ((uid ≠ f.user_id ∧ uid ∈ f.permissions.read ∧ uid ∉ f.permissions.write ∧
        uid ∉ f.permissions.delete) →
        permitted f uid Action.read = true ∧ permitted f uid Action.write = false ∧
        permitted f uid Action.del = false) := by
  have hgate : ∀ a : Action, permitted f uid a = true ↔
      (uid = f.user_id ∨ uid ∈ permList f a) := by
    intro a
    simp [permitted, access_denied, contains_iff_mem]
    exact ⟨fun h => h.imp Eq.symm id, fun h => h.imp Eq.symm id⟩
  refine ⟨hgate, ?_, ?_, ?_⟩
  · intro h a
    exact (hgate a).2 (Or.inl h)
  · intro h a
    have := hgate a
    rcases hp : permitted f uid a with _ | _
    · rfl
    · rcases this.1 hp with h1 | h2
      · exact absurd h1 h.1.elim
      · exact absurd h2 (h.2 a)
  · intro h
    refine ⟨(hgate Action.read).2 (Or.inr h.2.1), ?_, ?_⟩
    · rcases hp : permitted f uid Action.write with _ | _
      · rfl
      · rcases (hgate Action.write).1 hp with h1 | h2
        · exact absurd h1 h.1.elim
        · exact absurd h2 h.2.2.1
    · rcases hp : permitted f uid Action.del with _ | _
      · rfl
      · rcases (hgate Action.del).1 hp with h1 | h2
        · exact absurd h1 h.1.elim
        · exact absurd h2 h.2.2.2

/-- Witness for C4 at the example file: u2 is a member of only the read list
and gets read but neither write nor delete. -/
theorem c4_access_gate_witness :
    permitted exFile ("u2") Action.read = true ∧
    permitted exFile ("u2") Action.write = false ∧
    permitted exFile ("u2") Action.del = false :=
  (c4_access_gate exFile ("u2")).2.2.2
    ⟨by decide, by decide, by decide, by decide⟩

/-- Looking up a live file after update_file returns the updated document. -/
theorem get_file_by_id_after_update_file (db : DB) (fid : Nat) (u : UpdateData)
    (fi : FileDoc) (hget : get_file_by_id db fid = Option.some fi) :
    get_file_by_id (update_file db fid u).1 fid = Option.some (applySet u fi) :=
  find_live_update db.files fid (applySet u) (fun _ => rfl) (fun _ => rfl) fi hget

/-- On the success path (file found, write permitted, version found),
restore_version performs exactly the update_file call and, because
update_file returns None, flashes the error message and error redirect. -/
theorem restore_version_eq (db : DB) (uid : String) (fid v : Nat) (fi : FileDoc)
    (vi : VersionDoc) (hget : get_file_by_id db fid = Option.some fi)
    (hperm : access_denied fi uid Action.write = false)
    (hver : get_file_version db fid v = Option.some vi) :
    restore_version db uid fid v =
      ((update_file db fid ⟨Option.some vi.s3_key, Option.some v, Option.none,
          Option.none⟩).1,
       ⟨[("Error restoring version", "danger")], Redirect.view_page fid⟩) := by
  unfold restore_version
  rw [hget]
  simp [hperm, hver, update_file]

/-! C6 : restoreVersion repoints the record and touches no version row. -/

/-- C6.  With the file present and the writer permitted: when version v
exists, restore_version sets the record's current_version to v and its
storage reference to that version's s3_key while leaving the file_versions
collection exactly as it was; when version v does not exist it fails with the
Version-not-found flash and changes nothing. -/
theorem c6_restore_frame (db : DB) (uid : String) (fid v : Nat) (fi : FileDoc)
    (hget : get_file_by_id db fid = Option.some fi)
    (hperm : access_denied fi uid Action.write = false) :
    (∀ vi, get_file_version db fid v = Option.some vi →
       (∃ rec, get_file_by_id (restore_version db uid fid v).1 fid = Option.some rec ∧
          rec.current_version = v ∧ rec.s3_key = vi.s3_key)
       ∧ (restore_version db uid fid v).1.versions = db.versions)
    ∧ (get_file_version db fid v = Option.none →
        restore_version db uid fid v =
          (db, ⟨[("Version not found", "danger")], Redirect.view_page fid⟩)) := by
  constructor
  · intro vi hver
    rw [restore_version_eq db uid fid v fi vi hget hperm hver]
    exact ⟨⟨applySet ⟨Option.some vi.s3_key, Option.some v, Option.none, Option.none⟩ fi,
      get_file_by_id_after_update_file db fid _ fi hget, rfl, rfl⟩, rfl⟩
  · intro hnone
    unfold restore_version
    rw [hget]
    simp [hperm, hnone]

/-- Witness for C6 at the example database: restoring file 1 to its existing
version 1 repoints the record and keeps both version rows; restoring to the
absent version 5 fails with the Version-not-found flash. -/
theorem c6_restore_frame_witness :
    ((∃ rec, get_file_by_id (restore_version exDB ("u1") 1 1).1 1 = Option.some rec ∧
        rec.current_version = 1 ∧ rec.s3_key = exV1.s3_key)
      ∧ (restore_version exDB ("u1") 1 1).1.versions = exDB.versions)
    ∧ restore_version exDB ("u1") 1 5 =
        (exDB, ⟨[("Version not found", "danger")], Redirect.view_page 1⟩) :=
  ⟨(c6_restore_frame exDB ("u1") 1 1 exFile (by decide) (by decide)).1 exV1 (by decide),
   (c6_restore_frame exDB ("u1") 1 5 exFile (by decide) (by decide)).2 (by decide)⟩

/-! C10 : the restore handler reports failure although the update happened. -/

/-- C10.  On every successful restore (file present, writer permitted,
version present) the handler flashes the error message and takes the error
redirect - File.update_file returns None so the success check is always
falsy - even though the file record was in fact repointed to version v. -/
theorem c10_restore_reports_failure (db : DB) (uid : String) (fid v : Nat)
    (fi : FileDoc) (vi : VersionDoc)
    (hget : get_file_by_id db fid = Option.some fi)
    (hperm : access_denied fi uid Action.write = false)
    (hver : get_file_version db fid v = Option.some vi) :
    (restore_version db uid fid v).2 =
      ⟨[("Error restoring version", "danger")], Redirect.view_page fid⟩
    ∧ ∃ rec, get_file_by_id (restore_version db uid fid v).1 fid = Option.some rec ∧
        rec.current_version = v ∧ rec.s3_key = vi.s3_key := by
  rw [restore_version_eq db uid fid v fi vi hget hperm hver]
  exact ⟨rfl,
    applySet ⟨Option.some vi.s3_key, Option.some v, Option.none, Option.none⟩ fi,
    get_file_by_id_after_update_file db fid _ fi hget, rfl, rfl⟩

/-- Witness for C10: restoring the example file to version 1 flashes the
error response while the record now sits at version 1 with version 1's
storage key. -/
theorem c10_restore_reports_failure_witness :
    (restore_version exDB ("u1") 1 1).2 =
      ⟨[("Error restoring version", "danger")], Redirect.view_page 1⟩
    ∧ ∃ rec, get_file_by_id (restore_version exDB ("u1") 1 1).1 1 = Option.some rec ∧
        rec.current_version = 1 ∧ rec.s3_key = exV1.s3_key :=
  c10_restore_reports_failure exDB ("u1") 1 1 exFile exV1 (by decide) (by decide) (by decide)

/-! C1 : version numbers after a restore. -/

/-- Counterexample to C1.  In the example database file 1 has seen version
numbers 1 and 2; after restoring to version 1, the next add_new_version hands
out version number 2 again - not a number strictly higher than every number
previously seen, so the monotonic-counter claim fails and a version number is
reused. -/
theorem c1_counterexample :
    (add_new_version (restore_version exDB ("u1") 1 1).1 1 ("u1") ("k3") 30 Option.none).2 =
      Option.some 2
    ∧ 2 ∈ versionNumbersOf exDB 1
    ∧ ¬ (∀ n ∈ versionNumbersOf exDB 1, n < 2) := by
  refine ⟨by decide, by decide, ?_⟩
  intro h
  exact absurd (h 2 (by decide)) (by decide)

/-- C1 as amended.  After a successful restore_version(fid, v), the next
add_new_version assigns version number v + 1 (current_version + 1 computed
from the rolled-back pointer), not a number above every previously seen one;
version numbers can therefore be reused after a restore. -/
theorem c1_amended_version_after_restore (db : DB) (uid : String) (fid v : Nat)
    (fi : FileDoc) (vi : VersionDoc)
    (hget : get_file_by_id db fid = Option.some fi)
    (hperm : access_denied fi uid Action.write = false)
    (hver : get_file_version db fid v = Option.some vi)
    (uid2 key2 : String) (sz2 : Nat) (c2 : Option String) :
    (add_new_version (restore_version db uid fid v).1 fid uid2 key2 sz2 c2).2 =
      Option.some (v + 1) := by
  have hget' : get_file_by_id (restore_version db uid fid v).1 fid =
      Option.some (applySet ⟨Option.some vi.s3_key, Option.some v, Option.none,
        Option.none⟩ fi) := by
    rw [restore_version_eq db uid fid v fi vi hget hperm hver]
    exact get_file_by_id_after_update_file db fid _ fi hget
  unfold add_new_version
  rw [hget']
  rfl

/-- Witness for the amended C1: after restoring the example file to version
1, the next add_new_version returns version number 2 = 1 + 1. -/
theorem c1_amended_version_after_restore_witness :
    (add_new_version (restore_version exDB ("u1") 1 1).1 1 ("u1") ("k3") 30 Option.none).2 =
      Option.some (1 + 1) :=
  c1_amended_version_after_restore exDB ("u1") 1 1 exFile exV1 (by decide) (by decide)
    (by decide) ("u1") ("k3") 30 Option.none

/-! C5 : the owner is always in all three permission lists. -/

/-- share_file's append step always leaves the acting user in the list. -/
theorem mem_ensure_member (uid : String) (l : List String) :
    uid ∈ ensure_member uid l := by
  unfold ensure_member
  by_cases h : l.contains uid = true
  · simp [h, contains_iff_mem.mp h]
  · have h2 : uid ∉ l := fun hm => h (contains_iff_mem.mpr hm)
    simp [h, h2]

/-- C5.  create_file stores the owner in all three permission lists, and
every sharing update that passes the owner check stores a permissions
document whose read, write and delete lists all contain the owner again,
whatever lists the form submitted. -/
theorem c5_owner_in_all_sets :
    (∀ (db : DB) (newId : Nat) (uid fn key ft : String) (sz : Nat) (md : Metadata),
       ∃ fdoc : FileDoc,
         (create_file db newId uid fn key ft sz md).1.files = db.files ++ [fdoc] ∧
         fdoc.id = newId ∧ fdoc.user_id = uid ∧
         uid ∈ fdoc.permissions.read ∧ uid ∈ fdoc.permissions.write ∧
         uid ∈ fdoc.permissions.delete)
    ∧ (∀ (db : DB) (uid : String) (fid : Nat) (fi : FileDoc) (rl wl dl : List String),
        get_file_by_id db fid = Option.some fi → fi.user_id = uid →
        ∃ rec, get_file_by_id (share_file_post db uid fid rl wl dl).1 fid =
            Option.some rec ∧
          rec.permissions.owner = uid ∧ uid ∈ rec.permissions.read ∧
          uid ∈ rec.permissions.write ∧ uid ∈ rec.permissions.delete) := by
  constructor
  · intro db newId uid fn key ft sz md
    exact ⟨⟨newId, uid, fn, key, ft, sz, md, false, 1, ⟨uid, [uid], [uid], [uid]⟩⟩,
      rfl, rfl, rfl, by simp, by simp, by simp⟩
  · intro db uid fid fi rl wl dl hget howner
    have heq : share_file_post db uid fid rl wl dl =
        ((update_file db fid ⟨Option.none, Option.none, Option.none, Option.some
            ⟨uid, ensure_member uid rl, ensure_member uid wl,
             ensure_member uid dl⟩⟩).1,
         ⟨[("Sharing settings updated successfully!", "success")],
          Redirect.view_page fid⟩) := by
      unfold share_file_post
      rw [hget]
      simp [howner, update_file]
    rw [heq]
    exact ⟨applySet ⟨Option.none, Option.none, Option.none, Option.some
        ⟨uid, ensure_member uid rl, ensure_member uid wl, ensure_member uid dl⟩⟩ fi,
      get_file_by_id_after_update_file db fid _ fi hget, rfl,
      mem_ensure_member uid rl, mem_ensure_member uid wl, mem_ensure_member uid dl⟩

/-- Witness for C5: creating a file for u1 stores u1 in all three lists, and
u1 sharing the example file with form lists that omit u1 everywhere still
stores u1 in all three lists. -/
theorem c5_owner_in_all_sets_witness :
    (∃ fdoc : FileDoc,
       (create_file ⟨[], []⟩ 3 ("u1") ("a.txt") ("k0") ("txt") 10 mdNone).1.files =
         (⟨[], []⟩ : DB).files ++ [fdoc] ∧ fdoc.id = 3 ∧ fdoc.user_id = "u1" ∧
       "u1" ∈ fdoc.permissions.read ∧ "u1" ∈ fdoc.permissions.write ∧
       "u1" ∈ fdoc.permissions.delete)
    ∧ (∃ rec, get_file_by_id (share_file_post exDB ("u1") 1 [] ["u9"] []).1 1 =
          Option.some rec ∧
        rec.permissions.owner = "u1" ∧ "u1" ∈ rec.permissions.read ∧
        "u1" ∈ rec.permissions.write ∧ "u1" ∈ rec.permissions.delete) :=
  ⟨c5_owner_in_all_sets.1 ⟨[], []⟩ 3 ("u1") ("a.txt") ("k0") ("txt") 10 mdNone,
   c5_owner_in_all_sets.2 exDB ("u1") 1 exFile [] ["u9"] [] (by decide) (by decide)⟩

/-! C7 : soft delete hides the file from get, list and search. -/

/-- After soft_delete fid, every still-live document in the files collection
has a different identifier. -/
theorem soft_delete_live_ne (db : DB) (fid : Nat) (f : FileDoc)
    (hmem : f ∈ (soft_delete db fid).files) (hlive : f.is_deleted = false) :
    f.id ≠ fid := by
  unfold soft_delete update_matching at hmem
  simp only [List.mem_map] at hmem
  obtain ⟨g, hg, rfl⟩ := hmem
  by_cases hid : g.id = fid
  · rw [if_pos (by simp [hid])] at hlive
    simp [markDeleted] at hlive
  · rw [if_neg (by simp [hid])] at hlive ⊢
    exact hid

/-- C7.  After soft_delete(fid): get_file_by_id(fid) returns nothing, the
per-user listing contains no document with that identifier, and search (with
or without a user restriction) returns no document with that identifier. -/
theorem c7_soft_delete_excludes (db : DB) (fid : Nat) :
    get_file_by_id (soft_delete db fid) fid = Option.none
    ∧ (∀ (uid : String) (f : FileDoc),
        f ∈ get_user_files (soft_delete db fid) uid → f.id ≠ fid)
    ∧ (∀ (q : String) (uo : Option String) (f : FileDoc),
        f ∈ search_files (soft_delete db fid) q uo → f.id ≠ fid) := by
  refine ⟨?_, ?_, ?_⟩
  · unfold get_file_by_id
    apply List.find?_eq_none.mpr
    intro x hx hpx
    simp only [Bool.and_eq_true, beq_iff_eq, Bool.not_eq_true'] at hpx
    exact soft_delete_live_ne db fid x hx hpx.2 hpx.1
  · intro uid f hmem
    unfold get_user_files at hmem
    have h := List.mem_filter.mp hmem
    have hlive : f.is_deleted = false := by
      have h2 := h.2
      simp only [Bool.and_eq_true, Bool.not_eq_true'] at h2
      exact h2.2
    exact soft_delete_live_ne db fid f h.1 hlive
  · intro q uo f hmem
    unfold search_files at hmem
    cases uo with
    | none =>
        have h := List.mem_filter.mp hmem
        have hlive : f.is_deleted = false := by
          have h2 := h.2
          simp only [Bool.and_eq_true, Bool.not_eq_true'] at h2
          exact h2.2
        exact soft_delete_live_ne db fid f h.1 hlive
    | some uid =>
        have h := List.mem_filter.mp hmem
        have hlive : f.is_deleted = false := by
          have h2 := h.2
          simp only [Bool.and_eq_true, Bool.not_eq_true'] at h2
          exact h2.2
        exact soft_delete_live_ne db fid f h.1 hlive

/-- Witness for C7: deleting file 1 of the two-file database makes
get_file_by_id(1) return nothing, while the surviving file 2, still listed
for u1 and still found by searching for its name, has identifier different
from 1. -/
theorem c7_soft_delete_excludes_witness :
    get_file_by_id (soft_delete exDB2 1) 1 = Option.none
    ∧ exFile2.id ≠ 1 :=
  ⟨(c7_soft_delete_excludes exDB2 1).1,
   (c7_soft_delete_excludes exDB2 1).2.1 ("u1") exFile2 (by decide)⟩

/-! C2 : search with a user restriction drops the query filter (code bug:
the user_id branch of File.search_files reassigns the "$or" key, replacing
the query clauses its own comment says it merely limits). -/

/-- Failing input for C2.  The example file's name is "report" and its
metadata is empty, so the query "zzz" matches nothing; yet
search_files("zzz", u1) returns the file, because with a user identifier the
query clauses were overwritten by the owned-or-readable clause.  Without a
user identifier the same query correctly returns nothing. -/
theorem c2_search_failing_input :
    search_files exDB ("zzz") (Option.some ("u1")) = [exFile]
    ∧ matchesQuery ("zzz") exFile = false
    ∧ exFile.is_deleted = false
    ∧ search_files exDB ("zzz") Option.none = [] := by decide

/-! C9 : storage-adapter operations return explicit outcomes. -/

/-- C9.  Every adapter operation returns an explicit (success, payload) pair;
on a path that does not exist, download_file, delete_file and
generate_presigned_url return a failure pair whose message is the string
"File not found: " followed by the missing path (so the message names the
missing file), and delete_file leaves the store untouched; upload_file
returns an explicit success pair carrying the stored path. -/
theorem c9_storage_failure_outcomes (fs : FS) (p : String)
    (h : path_exists fs p = false) (data : List Nat) (expiration nowTs : Nat)
    (md5hex : String → String) :
    download_file fs p = (false, SVal.text ("File not found: " ++ p))
    ∧ delete_file fs p = (fs, (false, SVal.text ("File not found: " ++ p)))
    ∧ generate_presigned_url fs p expiration nowTs md5hex =
        (false, SVal.text ("File not found: " ++ p))
    ∧ (upload_file fs data p).2 = (true, SVal.text p) := by
  have hfind : fs.entries.find? (fun e => e.1 == p) = Option.none := by
    apply List.find?_eq_none.mpr
    unfold path_exists at h
    exact List.any_eq_false.mp h
  refine ⟨?_, ?_, ?_, rfl⟩
  · unfold download_file
    rw [hfind]
  · unfold delete_file
    rw [h]
    rfl
  · unfold generate_presigned_url
    rw [h]
    rfl

/-- Witness for C9 on the empty store, where no path exists. -/
theorem c9_storage_failure_outcomes_witness :
    download_file ⟨[]⟩ ("a.txt") = (false, SVal.text ("File not found: " ++ "a.txt"))
    ∧ delete_file ⟨[]⟩ ("a.txt") = (⟨[]⟩, (false, SVal.text ("File not found: " ++ "a.txt")))
    ∧ generate_presigned_url ⟨[]⟩ ("a.txt") 3600 0 (fun s => s) =
        (false, SVal.text ("File not found: " ++ "a.txt"))
    ∧ (upload_file ⟨[]⟩ [7, 8] ("a.txt")).2 = (true, SVal.text ("a.txt")) :=
  c9_storage_failure_outcomes ⟨[]⟩ ("a.txt") (by decide) [7, 8] 3600 0 (fun s => s)

/-! C8 : what a concurrent reader can observe during add_new_version. -/

/-- A database state never shows a current_version pointing at an unwritten
version row: every file document's current_version is carried by some stored
version document of that file. -/
def pointer_valid (db : DB) : Prop :=
  ∀ f ∈ db.files, ∃ v ∈ db.versions,
    v.file_id = f.id ∧ v.version_number = f.current_version

/-- C8.  add_new_version issues its two writes insert-first, so relative to
concurrent readers: every observable state of the operation (pre-state,
between the writes, post-state) keeps every current_version pointing at a
written version row, and once the operation returns, the newly written row is
reflected in the parent record (current_version equals the new row's number
and the new row is stored). -/
theorem c8_add_version_reader_observations (db : DB) (fid : Nat) (uid key : String)
    (sz : Nat) (c : Option String) (fi : FileDoc)
    (hget : get_file_by_id db fid = Option.some fi)
    (hinv : pointer_valid db) :
    (∀ s ∈ add_version_trace db fid uid key sz c, pointer_valid s)
    ∧ (add_new_version db fid uid key sz c).2 = Option.some (fi.current_version + 1)
    ∧ (∃ rec, get_file_by_id (add_new_version db fid uid key sz c).1 fid =
        Option.some rec ∧ rec.current_version = fi.current_version + 1)
    ∧ newVersionDoc fid uid key sz c (fi.current_version + 1) ∈
        (add_new_version db fid uid key sz c).1.versions := by
  have htrace : add_version_trace db fid uid key sz c =
      [db,
       insert_version db (newVersionDoc fid uid key sz c (fi.current_version + 1)),
       set_current_pointer
         (insert_version db (newVersionDoc fid uid key sz c (fi.current_version + 1)))
         fid (fi.current_version + 1) key sz] := by
    unfold add_version_trace
    rw [hget]
  have hadd : add_new_version db fid uid key sz c =
      (set_current_pointer
         (insert_version db (newVersionDoc fid uid key sz c (fi.current_version + 1)))
         fid (fi.current_version + 1) key sz,
       Option.some (fi.current_version + 1)) := by
    unfold add_new_version
    rw [hget]
  have hmid : pointer_valid
      (insert_version db (newVersionDoc fid uid key sz c (fi.current_version + 1))) := by
    intro f hf
    obtain ⟨v0, hv0, h1, h2⟩ := hinv f hf
    exact ⟨v0, List.mem_append_left _ hv0, h1, h2⟩
  have hpost : pointer_valid
      (set_current_pointer
        (insert_version db (newVersionDoc fid uid key sz c (fi.current_version + 1)))
        fid (fi.current_version + 1) key sz) := by
    intro f hf
    unfold set_current_pointer insert_version update_matching at hf
    simp only [List.mem_map] at hf
    obtain ⟨g, hg, rfl⟩ := hf
    by_cases hid : g.id = fid
    · rw [if_pos (by simp [hid])]
      refine ⟨newVersionDoc fid uid key sz c (fi.current_version + 1),
        List.mem_append_right _ (by simp), by simp [newVersionDoc, setPointer, hid], ?_⟩
      simp [newVersionDoc, setPointer]
    · rw [if_neg (by simp [hid])]
      obtain ⟨v0, hv0, h1, h2⟩ := hinv g hg
      exact ⟨v0, List.mem_append_left _ hv0, h1, h2⟩
  refine ⟨?_, ?_, ?_, ?_⟩
  · rw [htrace]
    intro s hs
    simp only [List.mem_cons, List.not_mem_nil, or_false] at hs
    rcases hs with rfl | rfl | rfl
    · exact hinv
    · exact hmid
    · exact hpost
  · rw [hadd]
  · rw [hadd]
    exact ⟨setPointer (fi.current_version + 1) key sz fi,
      find_live_update db.files fid (setPointer (fi.current_version + 1) key sz)
        (fun _ => rfl) (fun _ => rfl) fi hget, rfl⟩
  · rw [hadd]
    exact List.mem_append_right _ (by simp)

/-- Witness for C8 at the example database: the pre-state invariant holds,
the call returns version number 3, the record afterwards sits at
current_version 3, and the state between the two writes still satisfies the
reader invariant. -/
theorem c8_add_version_reader_observations_witness :
    pointer_valid exDB
    ∧ (add_new_version exDB 1 ("u1") ("k3") 30 Option.none).2 =
        Option.some (exFile.current_version + 1)
    ∧ (∃ rec, get_file_by_id (add_new_version exDB 1 ("u1") ("k3") 30 Option.none).1 1 =
        Option.some rec ∧ rec.current_version = exFile.current_version + 1)
    ∧ pointer_valid
        (insert_version exDB (newVersionDoc 1 ("u1") ("k3") 30 Option.none
          (exFile.current_version + 1))) :=
  have hinv : pointer_valid exDB := by
    unfold pointer_valid
    decide
  have h := c8_add_version_reader_observations exDB 1 ("u1") ("k3") 30 Option.none exFile
    (by decide) hinv
  ⟨hinv, h.2.1, h.2.2.1,
   h.1 (insert_version exDB (newVersionDoc 1 ("u1") ("k3") 30 Option.none
     (exFile.current_version + 1))) (by decide)⟩

/-! C3 : version numbers along a sequence of add_new_version calls. -/

/-- The arguments of one add_new_version call (actor, storage key, size,
optional comment). -/
structure AddReq where
  uid : String
  s3_key : String
  file_size : Nat
  comment : Option String
deriving DecidableEq

/-- Run a sequence of add_new_version calls against one file. -/
def run_adds (db : DB) (fid : Nat) : List AddReq → DB
  | [] => db
  | r :: rs => run_adds (add_new_version db fid r.uid r.s3_key r.file_size r.comment).1 fid rs

/-- Inserting a version document appends its number to the file's recorded
version numbers exactly when it belongs to that file. -/
theorem versionNumbersOf_insert (db : DB) (v : VersionDoc) (fid : Nat) :
    versionNumbersOf (insert_version db v) fid =
      versionNumbersOf db fid ++
        (if v.file_id == fid then [v.version_number] else []) := by
  unfold versionNumbersOf versions_of insert_version
  rw [List.filter_append, List.map_append]
  by_cases h : v.file_id = fid
  · simp [h]
  · simp [h]

/-- Along a run of add_new_version calls on a live file, the found record's
current_version grows by the number of calls and the file's recorded version
numbers extend by the consecutive block that starts right above the starting
current_version. -/
theorem run_adds_spec (fid : Nat) (reqs : List AddReq) :
    ∀ (db : DB) (fi : FileDoc), get_file_by_id db fid = Option.some fi →
    ∃ rec, get_file_by_id (run_adds db fid reqs) fid = Option.some rec ∧
      rec.current_version = fi.current_version + reqs.length ∧
      versionNumbersOf (run_adds db fid reqs) fid =
        versionNumbersOf db fid ++ List.range' (fi.current_version + 1) reqs.length := by
  induction reqs with
  | nil =>
      intro db fi hget
      exact ⟨fi, hget, by simp, by simp [run_adds]⟩
  | cons r rs ih =>
      intro db fi hget
      have hstep : (add_new_version db fid r.uid r.s3_key r.file_size r.comment).1 =
          set_current_pointer
            (insert_version db
              (newVersionDoc fid r.uid r.s3_key r.file_size r.comment
                (fi.current_version + 1)))
            fid (fi.current_version + 1) r.s3_key r.file_size := by
        unfold add_new_version
        rw [hget]
      have hget2 : get_file_by_id
          (add_new_version db fid r.uid r.s3_key r.file_size r.comment).1 fid =
          Option.some (setPointer (fi.current_version + 1) r.s3_key r.file_size fi) := by
        rw [hstep]
        exact find_live_update db.files fid
          (setPointer (fi.current_version + 1) r.s3_key r.file_size)
          (fun _ => rfl) (fun _ => rfl) fi hget
      obtain ⟨rec, h1, h2, h3⟩ :=
        ih (add_new_version db fid r.uid r.s3_key r.file_size r.comment).1
          (setPointer (fi.current_version + 1) r.s3_key r.file_size fi) hget2
      have hvn : versionNumbersOf
          (add_new_version db fid r.uid r.s3_key r.file_size r.comment).1 fid =
          versionNumbersOf db fid ++ [fi.current_version + 1] := by
        rw [hstep]
        have : versionNumbersOf
            (set_current_pointer
              (insert_version db
                (newVersionDoc fid r.uid r.s3_key r.file_size r.comment
                  (fi.current_version + 1)))
              fid (fi.current_version + 1) r.s3_key r.file_size) fid =
            versionNumbersOf
              (insert_version db
                (newVersionDoc fid r.uid r.s3_key r.file_size r.comment
                  (fi.current_version + 1))) fid := rfl
        rw [this, versionNumbersOf_insert]
        simp [newVersionDoc]
      refine ⟨rec, ?_, ?_, ?_⟩
      · exact h1
      · rw [h2]
        simp only [setPointer, List.length_cons]
        omega
      · show versionNumbersOf
            (run_adds (add_new_version db fid r.uid r.s3_key r.file_size r.comment).1
              fid rs) fid = _
        rw [h3, hvn]
        simp only [setPointer, List.length_cons, List.append_assoc]
        rw [List.range'_succ]
        rfl

/-- Counterexample to C3 as stated.  createFile already writes version 1, so
after one successful addVersion call (N = 1) the file's version rows carry
the numbers 1 and 2 and current_version is 2 - not rows exactly 1..N = [1]
with current_version N = 1 as the claim computes. -/
theorem c3_counterexample :
    versionNumbersOf
      (add_new_version
        (create_file ⟨[], []⟩ 1 ("u1") ("a.txt") ("k1") ("txt") 10 mdNone).1
        1 ("u1") ("k2") 20 Option.none).1 1 = [1, 2]
    ∧ (get_file_by_id
        (add_new_version
          (create_file ⟨[], []⟩ 1 ("u1") ("a.txt") ("k1") ("txt") 10 mdNone).1
          1 ("u1") ("k2") 20 Option.none).1 1).map (fun f => f.current_version) =
        Option.some 2
    ∧ [1, 2] ≠ List.range' 1 1 ∧ (2 : Nat) ≠ 1 := by decide

/-- C3 as amended.  Starting from createFile (which writes version 1) and N
successful addVersion calls with no intervening restore, the file's version
rows carry exactly the numbers 1..N+1 with no gaps and current_version is
N + 1; each addVersion on a live file appends exactly the row numbered
current_version + 1 and returns that number; addVersion returns None (the
handlers' failure signal) when the file is absent. -/
theorem c3_amended_versions (db : DB) (newId : Nat) (uid fn key ft : String)
    (sz : Nat) (md : Metadata) (reqs : List AddReq)
    (hf : ∀ f ∈ db.files, f.id ≠ newId)
    (hv : ∀ v ∈ db.versions, v.file_id ≠ newId) :
    (∃ rec, get_file_by_id
        (run_adds (create_file db newId uid fn key ft sz md).1 newId reqs) newId =
        Option.some rec ∧ rec.current_version = reqs.length + 1)
    ∧ versionNumbersOf
        (run_adds (create_file db newId uid fn key ft sz md).1 newId reqs) newId =
        List.range' 1 (reqs.length + 1)
    ∧ (∀ (d : DB) (fid2 : Nat) (u2 k2 : String) (s2 : Nat) (c2 : Option String),
        get_file_by_id d fid2 = Option.none →
        add_new_version d fid2 u2 k2 s2 c2 = (d, Option.none))
    ∧ (∀ (d : DB) (fid2 : Nat) (fi : FileDoc) (u2 k2 : String) (s2 : Nat)
        (c2 : Option String),
        get_file_by_id d fid2 = Option.some fi →
        (add_new_version d fid2 u2 k2 s2 c2).2 = Option.some (fi.current_version + 1) ∧
        (add_new_version d fid2 u2 k2 s2 c2).1.versions =
          d.versions ++ [newVersionDoc fid2 u2 k2 s2 c2 (fi.current_version + 1)]) := by
  have hget0 : get_file_by_id (create_file db newId uid fn key ft sz md).1 newId =
      Option.some ⟨newId, uid, fn, key, ft, sz, md, false, 1,
        ⟨uid, [uid], [uid], [uid]⟩⟩ := by
    unfold get_file_by_id create_file
    rw [List.find?_append]
    have hnone : db.files.find? (fun f => f.id == newId && !f.is_deleted) =
        Option.none := by
      apply List.find?_eq_none.mpr
      intro x hx hpx
      simp only [Bool.and_eq_true, beq_iff_eq] at hpx
      exact hf x hx hpx.1
    rw [hnone]
    simp
  have hvn0 : versionNumbersOf (create_file db newId uid fn key ft sz md).1 newId =
      [1] := by
    unfold versionNumbersOf versions_of create_file
    rw [List.filter_append, List.map_append]
    have hnil : db.versions.filter (fun v => v.file_id == newId) = [] := by
      rw [List.filter_eq_nil_iff]
      intro v hvmem
      simp only [beq_iff_eq]
      exact hv v hvmem
    rw [hnil]
    simp
  obtain ⟨rec, h1, h2, h3⟩ := run_adds_spec newId reqs
    (create_file db newId uid fn key ft sz md).1
    ⟨newId, uid, fn, key, ft, sz, md, false, 1, ⟨uid, [uid], [uid], [uid]⟩⟩ hget0
  refine ⟨⟨rec, h1, by rw [h2]; show 1 + reqs.length = reqs.length + 1; omega⟩, ?_, ?_, ?_⟩
  · rw [h3, hvn0, List.range'_succ]
    rfl
  · intro d fid2 u2 k2 s2 c2 hnone
    unfold add_new_version
    rw [hnone]
  · intro d fid2 fi u2 k2 s2 c2 hsome
    unfold add_new_version
    rw [hsome]
    exact ⟨rfl, rfl⟩

/-- Witness for the amended C3: on the empty database, createFile followed by
two addVersion calls leaves rows 1, 2, 3 and current_version 3, and
addVersion on a missing identifier returns None. -/
theorem c3_amended_versions_witness :
    (∃ rec, get_file_by_id
        (run_adds (create_file ⟨[], []⟩ 1 ("u1") ("a.txt") ("k1") ("txt") 10 mdNone).1 1
          [⟨("u1"), ("k2"), 20, Option.none⟩, ⟨("u1"), ("k3"), 30, Option.none⟩]) 1 =
        Option.some rec ∧ rec.current_version = 2 + 1)
    ∧ versionNumbersOf
        (run_adds (create_file ⟨[], []⟩ 1 ("u1") ("a.txt") ("k1") ("txt") 10 mdNone).1 1
          [⟨("u1"), ("k2"), 20, Option.none⟩, ⟨("u1"), ("k3"), 30, Option.none⟩]) 1 =
        List.range' 1 (2 + 1) :=
  have h := c3_amended_versions ⟨[], []⟩ 1 ("u1") ("a.txt") ("k1") ("txt") 10 mdNone
    [⟨("u1"), ("k2"), 20, Option.none⟩, ⟨("u1"), ("k3"), 30, Option.none⟩]
    (by simp) (by simp)
  ⟨h.1, h.2.1⟩

end DocMgmt
